import Mathlib

/-!
Shallow embedding of the `node-hello-world` transcription endpoint.

The repository holds two near-identical serverless handlers:
* `src/unnamed/part_000` ("Strategy A"): metadata via oEmbed, audio via a
  public redirect-resolution service, upload of an in-memory buffer;
* `src/api/hello.ts` ("Strategy B"): metadata via `ytdl.getInfo`, audio
  streamed by `ytdl` into a temporary file, upload of a file stream.

JavaScript numbers are modelled as exact rationals (`ℚ`), strings as Lean
`String`/`List Char`, and every external effect (network call, stream,
`unlinkSync`) as an environment record carrying the result the outside
world would produce, together with an event trace recording which effects
the handler performed and in which order.
-/

namespace NHW

/-! ### The YouTube-id extraction regex, `src/api/hello.ts` lines 14-18

`/(?:youtube\.com\/(?:[^\/\n\s]+\/\S+\/|(?:v|e(?:mbed)?)\/|\S*?[?&]v=)|youtu\.be\/)([a-zA-Z0-9_-]{11})/`

The regex is embedded as a backtracking matcher in continuation-passing
style, alternative by alternative, preserving JavaScript's leftmost-match
rule, alternation order, greedy (`+`) and lazy (`*?`) quantifier order.
Characters are Unicode code points (JS works on UTF-16 units; the inputs
considered here contain no surrogate pairs, where the two agree). -/

/-- character class `[a-zA-Z0-9_-]` of the capture group -/
def isIdChar (c : Char) : Bool :=
  ('a' ≤ c && c ≤ 'z') || ('A' ≤ c && c ≤ 'Z') || ('0' ≤ c && c ≤ '9') || c == '_' || c == '-'

/-- JavaScript's `\s` class (ECMA-262 WhiteSpace ∪ LineTerminator) -/
def isSpaceJS (c : Char) : Bool :=
  c == ' ' || c == '\t' || c == '\n' || c.toNat == 0xb || c.toNat == 0xc || c == '\r' ||
  c.toNat == 0xa0 || c.toNat == 0x1680 || (0x2000 ≤ c.toNat && c.toNat ≤ 0x200a) ||
  c.toNat == 0x2028 || c.toNat == 0x2029 || c.toNat == 0x202f || c.toNat == 0x205f ||
  c.toNat == 0x3000 || c.toNat == 0xfeff

/-- `\S` -/
def isNonSpace (c : Char) : Bool := !(isSpaceJS c)

/-- `[^\/\n\s]` -/
def isA1First (c : Char) : Bool := !(c == '/' || c == '\n' || isSpaceJS c)

/-- `[?&]` -/
def isQAmp (c : Char) : Bool := c == '?' || c == '&'

/-- match a literal word, then continue -/
def lit : List Char → (List Char → Option (List Char)) → List Char → Option (List Char)
  | [], k, s => k s
  | _ :: _, _, [] => none
  | w :: ws, k, c :: s => if w = c then lit ws k s else none

/-- match one character of class `p`, then continue -/
def cls (p : Char → Bool) (k : List Char → Option (List Char)) :
    List Char → Option (List Char)
  | [] => none
  | c :: s => if p c then k s else none

/-- greedy `p+` followed by the continuation: longest repetition first,
backtracking one character at a time, at least one character consumed -/
def plusGreedy (p : Char → Bool) (k : List Char → Option (List Char)) :
    List Char → Option (List Char)
  | [] => none
  | c :: s =>
    if p c then
      match plusGreedy p k s with
      | some r => some r
      | none => k s
    else none

/-- lazy `p*?` followed by the continuation: shortest repetition first -/
def starLazy (p : Char → Bool) (k : List Char → Option (List Char)) :
    List Char → Option (List Char)
  | [] => k []
  | c :: s =>
    match k (c :: s) with
    | some r => some r
    | none => if p c then starLazy p k s else none

/-- the capture group `([a-zA-Z0-9_-]{11})`: take exactly `n` id characters -/
def takeId : Nat → List Char → Option (List Char)
  | 0, _ => some []
  | _ + 1, [] => none
  | n + 1, c :: s => if isIdChar c then (takeId n s).map (fun r => c :: r) else none

def captureId (s : List Char) : Option (List Char) := takeId 11 s

/-- first-alternative-wins choice, as the regex engine backtracks -/
def orElseO (a b : Option (List Char)) : Option (List Char) :=
  match a with
  | some r => some r
  | none => b

/-- `[^\/\n\s]+\/\S+\/` then the capture -/
def altA1 (s : List Char) : Option (List Char) :=
  plusGreedy isA1First (lit ['/'] (plusGreedy isNonSpace (lit ['/'] captureId))) s

/-- `(?:v|e(?:mbed)?)\/` then the capture -/
def altA2 (s : List Char) : Option (List Char) :=
  orElseO (lit ['v'] (lit ['/'] captureId) s)
    (lit ['e'] (fun t =>
      orElseO (lit ['m', 'b', 'e', 'd'] (lit ['/'] captureId) t)
        (lit ['/'] captureId t)) s)

/-- `\S*?[?&]v=` then the capture -/
def altA3 (s : List Char) : Option (List Char) :=
  starLazy isNonSpace (cls isQAmp (lit ['v', '='] captureId)) s

/-- the alternation inside `youtube\.com\/(?:...)` -/
def innerYtc (t : List Char) : Option (List Char) :=
  orElseO (altA1 t) (orElseO (altA2 t) (altA3 t))

/-- attempt the whole pattern anchored at the start of `s` -/
def matchYtAt (s : List Char) : Option (List Char) :=
  orElseO (lit ("youtube.com/").toList innerYtc s)
    (lit ("youtu.be/").toList captureId s)

/-- unanchored search: leftmost starting position wins, as `String.match` -/
def scan : List Char → Option (List Char)
  | [] => none
  | c :: s =>
    match matchYtAt (c :: s) with
    | some r => some r
    | none => scan s

/-- `extractYouTubeId` of `src/api/hello.ts` lines 14-18: `match[1]` of the
regex above, or `null`. -/
def extractYouTubeId (url : String) : Option String :=
  (scan url.toList).map (fun r => String.mk r)

/-! ### `formatTime`, `src/api/hello.ts` lines 21-26 = `src/unnamed/part_000` lines 117-122

```js
const hrs = Math.floor(seconds / 3600);
const mins = Math.floor((seconds % 3600) / 60);
const secs = Math.floor(seconds % 60);
return `${hrs.toString().padStart(2, '0')}:...`;
```
`%` is the JS remainder (truncated division), `Math.floor` the floor. -/

/-- JS `Math.trunc`-style integer part used by the `%` operator -/
def jsTrunc (q : ℚ) : ℤ := if q < 0 then ⌈q⌉ else ⌊q⌋

/-- the JavaScript `%` operator on numbers: `a - b * trunc(a / b)` -/
def jsMod (a b : ℚ) : ℚ := a - b * (jsTrunc (a / b) : ℚ)

/-- `Number.prototype.toString` for integer-valued numbers -/
def jsToString (n : ℤ) : String :=
  if n < 0 then ("-") ++ toString n.natAbs else toString n.natAbs

/-- `String.prototype.padStart(2, '0')` -/
def padStart2 (s : String) : String :=
  if s.length < 2 then String.mk (List.replicate (2 - s.length) '0') ++ s else s

/-- `formatTime` of both source files -/
def formatTime (seconds : ℚ) : String :=
  let hrs : ℤ := ⌊seconds / 3600⌋
  let mins : ℤ := ⌊jsMod seconds 3600 / 60⌋
  let secs : ℤ := ⌊jsMod seconds 60⌋
  padStart2 (jsToString hrs) ++ ":" ++ padStart2 (jsToString mins) ++ ":" ++
    padStart2 (jsToString secs)

/-! ### Transcript data and rendering (both handlers) -/

/-- one Whisper segment `{start, end, text}`; `end` is a Lean keyword and is
embedded as `stop` -/
structure Segment where
  start : ℚ
  stop : ℚ
  text : String
deriving DecidableEq

/-- the parsed `verbose_json` response `{ text, segments? }` of the
transcription service; an absent `segments` field is `none` -/
structure TranscriptionJson where
  text : String
  segments : Option (List Segment)
deriving DecidableEq

/-- `` `[${formatTime(segment.start)} - ${formatTime(segment.end)}] ${segment.text}` `` -/
def renderSegment (seg : Segment) : String :=
  "[" ++ formatTime seg.start ++ " - " ++ formatTime seg.stop ++ "] " ++ seg.text

/-- `Array.prototype.join(sep)` -/
def joinSep (sep : String) : List String → String
  | [] => ""
  | a :: as => as.foldl (fun acc b => acc ++ sep ++ b) a

/-- `transcription.segments.map(...).join('\n\n')` -/
def formattedTranscript (segs : List Segment) : String :=
  joinSep ("\n\n") (segs.map renderSegment)

/-- the `formattedTranscript` variable of both handlers: starts as `''` and is
overwritten only when `transcription.segments` is present (an empty array is
truthy in JS, so `some []` takes the rendering branch and yields `''` too) -/
def formattedOf (segments : Option (List Segment)) : String :=
  match segments with
  | some segs => formattedTranscript segs
  | none => ""

/-! ### Requests, responses and effect traces -/

/-- JS truthiness of an optional query-string parameter -/
def jsTruthy : Option String → Bool
  | none => false
  | some s => s != ""

/-- `error.message || 'An unknown error occurred'` -/
def jsMsg (e : String) : String :=
  if e = "" then ("An unknown error occurred") else e

/-- the `video` object of a success response -/
structure VideoOut where
  id : String
  title : String
  url : String
deriving DecidableEq

/-- the `transcript` object of a success response -/
structure TranscriptOut where
  full : String
  formatted : String
  segments : Option (List Segment)
  source : Option String
deriving DecidableEq

/-- JSON body sent with `res.status(...).json(...)` -/
inductive Body where
  | err (msg : String)
  | ok (video : VideoOut) (transcript : TranscriptOut)
deriving DecidableEq

/-- HTTP response: status code and body -/
structure HResp where
  status : Nat
  body : Body
deriving DecidableEq

/-- the observable shape of the multipart POST to the transcription service -/
structure WhisperReq where
  fileName : String
  model : String
  responseFormat : String
  authHeader : String
  httpMethod : String
deriving DecidableEq

/-- effects a handler invocation performs, in order -/
inductive Ev where
  | getInfo
  | download
  | oembed
  | audioApi
  | audioFetch
  | whisper (req : WhisperReq)
  | unlink
deriving DecidableEq

/-! ### Strategy A: `src/unnamed/part_000` -/

/-- the JSON body of the redirect-resolution ("audio API") service -/
structure AudioApiBody where
  success : Bool
  url : Option String
deriving DecidableEq

/-- `JSON.stringify(audioData)`, as interpolated into the thrown message
(string escaping is irrelevant to the claims and omitted) -/
def stringifyAudioBody (b : AudioApiBody) : String :=
  "\x7b" ++ "\x22success\x22:" ++ (if b.success then ("true") else ("false")) ++
    (match b.url with
     | none => ""
     | some u => ",\x22url\x22:\x22" ++ u ++ "\x22") ++ "\x7d"

instance {ε α : Type} [DecidableEq ε] [DecidableEq α] : DecidableEq (Except ε α) :=
  fun x y =>
    match x, y with
    | .error a, .error b =>
      match decEq a b with
      | isTrue h => isTrue (h ▸ rfl)
      | isFalse h => isFalse fun hh => h (Except.error.inj hh)
    | .ok a, .ok b =>
      match decEq a b with
      | isTrue h => isTrue (h ▸ rfl)
      | isFalse h => isFalse fun hh => h (Except.ok.inj hh)
    | .error _, .ok _ => isFalse fun hh => Except.noConfusion hh
    | .ok _, .error _ => isFalse fun hh => Except.noConfusion hh

/-- results the outside world hands Strategy A, one field per `await`;
`.error` on a `json()` field models a body that fails to parse -/
structure EnvA where
  cred : String
  oembedOk : Bool
  oembedStatus : Nat
  oembedTitle : Option String
  audioApiOk : Bool
  audioApiStatus : Nat
  audioApiBody : Except String AudioApiBody
  audioFetchOk : Bool
  audioFetchStatus : Nat
  whisperOk : Bool
  whisperStatus : Nat
  whisperBody : String
  whisperJson : TranscriptionJson
deriving DecidableEq

/-- the `handler` of `src/unnamed/part_000`.  The request's `url` parameter is
accepted but never read by this variant (lines 6-10 look only at `id`).  Every
`throw` lands in the `catch` of lines 108-113, producing
`res.status(500).json({error: error.message || ...})`. -/
def handlerA (env : EnvA) (qid _qurl : Option String) : HResp × List Ev :=
  if ¬ jsTruthy qid then
    (⟨400, .err ("Missing video ID. Use ?id=VIDEO_ID")⟩, [])
  else
    let videoId := qid.getD ("")
    if ¬ env.oembedOk then
      (⟨500, .err (jsMsg ("Failed to fetch video info: " ++ toString env.oembedStatus))⟩,
       [Ev.oembed])
    else
      let videoTitle :=
        match env.oembedTitle with
        | some t => if t = "" then ("Unknown Video") else t
        | none => ("Unknown Video")
      if ¬ env.audioApiOk then
        (⟨500, .err (jsMsg ("Failed to get audio URL: " ++ toString env.audioApiStatus))⟩,
         [Ev.oembed, Ev.audioApi])
      else
        match env.audioApiBody with
        | .error e => (⟨500, .err (jsMsg e)⟩, [Ev.oembed, Ev.audioApi])
        | .ok body =>
          if (!body.success || !jsTruthy body.url) = true then
            (⟨500, .err (jsMsg ("Audio API did not return a valid URL: " ++
                stringifyAudioBody body))⟩,
             [Ev.oembed, Ev.audioApi])
          else
            if ¬ env.audioFetchOk then
              (⟨500, .err (jsMsg ("Failed to download audio: " ++
                  toString env.audioFetchStatus))⟩,
               [Ev.oembed, Ev.audioApi, Ev.audioFetch])
            else
              let wreq : WhisperReq :=
                ⟨videoId ++ ".mp3", "whisper-1", "verbose_json",
                 "Bearer " ++ env.cred, "POST"⟩
              if ¬ env.whisperOk then
                (⟨500, .err (jsMsg ("Whisper API error: " ++ toString env.whisperStatus ++
                    " - " ++ env.whisperBody))⟩,
                 [Ev.oembed, Ev.audioApi, Ev.audioFetch, Ev.whisper wreq])
              else
                (⟨200, .ok ⟨videoId, videoTitle, "https://www.youtube.com/watch?v=" ++ videoId⟩
                    ⟨env.whisperJson.text, formattedOf env.whisperJson.segments,
                     env.whisperJson.segments, some ("whisper")⟩⟩,
                 [Ev.oembed, Ev.audioApi, Ev.audioFetch, Ev.whisper wreq])

/-! ### Strategy B: `src/api/hello.ts` -/

/-- results the outside world hands Strategy B.  `info` is `ytdl.getInfo`
(title and `videoDetails.video_url`), `download` the awaited finish/error of
the output stream, `unlinkOk` whether `unlinkSync` succeeds — its failure is
swallowed by the `try`/`catch` around each `unlinkSync` call (lines 114-119
log it, lines 140-144 ignore it), which is why no other field of the outcome
can depend on it. -/
structure EnvB where
  cred : String
  uuid : String
  info : Except String (String × Option String)
  download : Except String Unit
  whisperOk : Bool
  whisperStatus : Nat
  whisperBody : String
  whisperJson : TranscriptionJson
  unlinkOk : Bool
deriving DecidableEq

/-- lines 35-41: `videoId = req.query.id`, falling back to extraction from
`req.query.url`; `none` means the subsequent `if (!videoId)` check fires -/
def effectiveIdB (qid qurl : Option String) : Option String :=
  if jsTruthy qid then qid
  else if jsTruthy qurl then extractYouTubeId (qurl.getD (""))
  else none

/-- basename of `join(tmpdir(), 'youtube-audio-' + uniqueId + '.mp3')`; the
`form-data` package names the uploaded file part after it -/
def tmpBaseName (uuid : String) : String := "youtube-audio-" ++ uuid ++ ".mp3"

/-- the `handler` of `src/api/hello.ts`.  Its `catch` block (lines 136-148)
always attempts `unlinkSync` once, ignoring cleanup errors, and answers 500
with the primary error's message; the success path (lines 114-134) attempts
`unlinkSync` once, logging a cleanup error, before answering 200. -/
def handlerB (env : EnvB) (method : String) (qid qurl : Option String) :
    HResp × List Ev :=
  if method ≠ "GET" then (⟨405, .err ("Method not allowed")⟩, [])
  else
    match effectiveIdB qid qurl with
    | none =>
      (⟨400, .err ("Missing or invalid YouTube video ID. Use ?id=VIDEO_ID or ?url=YOUTUBE_URL")⟩,
       [])
    | some videoId =>
      let standardUrl := "https://www.youtube.com/watch?v=" ++ videoId
      match env.info with
      | .error e => (⟨500, .err (jsMsg e)⟩, [Ev.getInfo, Ev.unlink])
      | .ok (videoTitle, actualUrl) =>
        match env.download with
        | .error e => (⟨500, .err (jsMsg e)⟩, [Ev.getInfo, Ev.download, Ev.unlink])
        | .ok _ =>
          let wreq : WhisperReq :=
            ⟨tmpBaseName env.uuid, "whisper-1", "verbose_json",
             "Bearer " ++ env.cred, "POST"⟩
          if ¬ env.whisperOk then
            (⟨500, .err (jsMsg ("Whisper API error: " ++ toString env.whisperStatus ++
                " - " ++ env.whisperBody))⟩,
             [Ev.getInfo, Ev.download, Ev.whisper wreq, Ev.unlink])
          else
            (⟨200, .ok ⟨videoId, videoTitle,
                (match actualUrl with
                 | some u => if u = "" then standardUrl else u
                 | none => standardUrl)⟩
                ⟨env.whisperJson.text, formattedOf env.whisperJson.segments,
                 env.whisperJson.segments, none⟩⟩,
             [Ev.getInfo, Ev.download, Ev.whisper wreq, Ev.unlink])

/-! ### Spec-side definitions used only to compare against the code -/

/-- Modelled from the spec: "known URL shapes (`watch?v=X`, `youtu.be/X`,
`/embed/X`, `/v/X`)" — `s` contains the given marker immediately followed by
an 11-character `[A-Za-z0-9_-]` token -/
def hasShape (pat : List Char) : List Char → Bool
  | [] => false
  | c :: r =>
    (pat.isPrefixOf (c :: r) && (takeId 11 ((c :: r).drop pat.length)).isSome) ||
      hasShape pat r

/-- Modelled from the spec: a string matching one of the four known URL
shapes listed in §4.1 / §8 of the design document -/
def specShape (s : String) : Bool :=
  hasShape ("watch?v=").toList s.toList || hasShape ("youtu.be/").toList s.toList ||
  hasShape ("/embed/").toList s.toList || hasShape ("/v/").toList s.toList

/-- structural rendering relation: the string consists of exactly the given
blocks, in order, consecutive blocks separated by exactly one blank line
(`"\n\n"`), with no leading or trailing separator -/
inductive JoinedBlocks : List String → String → Prop
  | nil : JoinedBlocks [] ""
  | single (b : String) : JoinedBlocks [b] b
  | cons (b b' : String) (bs : List String) (s : String) :
      JoinedBlocks (b' :: bs) s → JoinedBlocks (b :: b' :: bs) (b ++ "\n\n" ++ s)

end NHW

namespace NHW

theorem isIdChar_ne_slash {c : Char} (h : isIdChar c = true) : c ≠ '/' := by
  intro he
  subst he
  simp [isIdChar] at h

def NoSlash (s : List Char) : Prop := ∀ c ∈ s, c ≠ '/'

instance (s : List Char) : Decidable (NoSlash s) :=
  inferInstanceAs (Decidable (∀ c ∈ s, c ≠ '/'))

theorem orElseO_some (r : List Char) (b : Option (List Char)) :
    orElseO (some r) b = some r := rfl

theorem orElseO_none (b : Option (List Char)) : orElseO none b = b := rfl

theorem plusGreedy_cons (p : Char → Bool) (k : List Char → Option (List Char))
    (c : Char) (s : List Char) :
    plusGreedy p k (c :: s) = if p c then orElseO (plusGreedy p k s) (k s) else none := rfl

theorem starLazy_cons (p : Char → Bool) (k : List Char → Option (List Char))
    (c : Char) (s : List Char) :
    starLazy p k (c :: s) = orElseO (k (c :: s)) (if p c then starLazy p k s else none) := rfl

theorem lit_cons (w : Char) (ws : List Char) (k : List Char → Option (List Char))
    (c : Char) (s : List Char) :
    lit (w :: ws) k (c :: s) = if w = c then lit ws k s else none := rfl

theorem cls_cons (p : Char → Bool) (k : List Char → Option (List Char))
    (c : Char) (s : List Char) :
    cls p k (c :: s) = if p c then k s else none := rfl

theorem scan_cons (c : Char) (s : List Char) :
    scan (c :: s) = orElseO (matchYtAt (c :: s)) (scan s) := rfl

theorem takeId_sound : ∀ (n : Nat) (s r : List Char), takeId n s = some r →
    r.length = n ∧ ∀ c ∈ r, isIdChar c = true := by
  intro n
  induction n with
  | zero =>
    intro s r h
    simp [takeId] at h
    subst h
    simp
  | succ m ih =>
    intro s r h
    cases s with
    | nil => simp [takeId] at h
    | cons c t =>
      by_cases hc : isIdChar c = true
      · rw [takeId, if_pos hc] at h
        cases ht : takeId m t with
        | none => rw [ht] at h; simp at h
        | some r0 =>
          rw [ht] at h
          simp at h
          obtain ⟨hlen, hall⟩ := ih t r0 ht
          subst h
          refine ⟨by simp [hlen], ?_⟩
          intro d hd
          rcases List.mem_cons.mp hd with h1 | h2
          · subst h1; exact hc
          · exact hall d h2
      · rw [takeId, if_neg hc] at h
        simp at h

theorem takeId_append (x q : List Char) (hid : ∀ c ∈ x, isIdChar c = true) :
    takeId x.length (x ++ q) = some x := by
  induction x with
  | nil => rfl
  | cons c t ih =>
    have hc : isIdChar c = true := hid c (List.mem_cons_self c t)
    have ih2 := ih fun d hd => hid d (List.mem_cons_of_mem c hd)
    show takeId (t.length + 1) (c :: (t ++ q)) = some (c :: t)
    rw [takeId, if_pos hc, ih2]
    rfl

theorem lit_append (w : List Char) (k : List Char → Option (List Char)) (s : List Char) :
    lit w k (w ++ s) = k s := by
  induction w with
  | nil => rfl
  | cons c t ih =>
    show lit (c :: t) k (c :: (t ++ s)) = k s
    rw [lit_cons, if_pos rfl, ih]

theorem plusGreedy_none (p : Char → Bool) (k : List Char → Option (List Char)) :
    ∀ s : List Char, (∀ t, t <:+ s → k t = none) → plusGreedy p k s = none := by
  intro s
  induction s with
  | nil => intro _; rfl
  | cons c t ih =>
    intro h
    have ht : plusGreedy p k t = none :=
      ih fun u hu => h u (hu.trans (List.suffix_cons c t))
    have hk : k t = none := h t (List.suffix_cons c t)
    rw [plusGreedy_cons]
    by_cases hp : p c = true
    · rw [if_pos hp, ht, orElseO_none, hk]
    · rw [if_neg hp]

theorem lit_slash_none (k : List Char → Option (List Char)) {s : List Char}
    (hs : NoSlash s) : ∀ t, t <:+ s → lit ['/'] k t = none := by
  intro t ht
  cases t with
  | nil => rfl
  | cons c r =>
    have hc : c ≠ '/' := hs c (ht.subset (List.mem_cons_self c r))
    rw [lit_cons, if_neg fun h => hc h.symm]

theorem inner2_none {s : List Char} (hs : NoSlash s) :
    plusGreedy isNonSpace (lit ['/'] captureId) s = none :=
  plusGreedy_none _ _ s (lit_slash_none _ hs)

theorem altA1_noslash {s : List Char} (hs : NoSlash s) : altA1 s = none :=
  plusGreedy_none _ _ s (lit_slash_none _ hs)

theorem altA1_oneSlash : ∀ (a r : List Char), NoSlash a → NoSlash r →
    altA1 (a ++ '/' :: r) = none := by
  intro a
  induction a with
  | nil =>
    intro r _ _
    show plusGreedy isA1First _ ('/' :: r) = none
    rw [plusGreedy_cons, if_neg (by decide : ¬ isA1First '/' = true)]
  | cons c a0 ih =>
    intro r ha hr
    have htail : NoSlash a0 := fun d hd => ha d (List.mem_cons_of_mem c hd)
    have hrec : plusGreedy isA1First (lit ['/'] (plusGreedy isNonSpace (lit ['/'] captureId)))
        (a0 ++ '/' :: r) = none := ih r htail hr
    have hk : lit ['/'] (plusGreedy isNonSpace (lit ['/'] captureId)) (a0 ++ '/' :: r) = none := by
      cases a0 with
      | nil =>
        show lit ['/'] _ ('/' :: r) = none
        rw [lit_cons, if_pos rfl]
        show plusGreedy isNonSpace (lit ['/'] captureId) r = none
        exact inner2_none hr
      | cons d a1 =>
        have hd : d ≠ '/' := htail d (List.mem_cons_self d a1)
        show lit ['/'] _ (d :: (a1 ++ '/' :: r)) = none
        rw [lit_cons, if_neg fun h => hd h.symm]
    show plusGreedy isA1First _ (c :: (a0 ++ '/' :: r)) = none
    rw [plusGreedy_cons]
    by_cases hp : isA1First c = true
    · rw [if_pos hp, hrec, orElseO_none, hk]
    · rw [if_neg hp]


theorem starLazy_hit (p : Char → Bool) (k : List Char → Option (List Char))
    (s r : List Char) (h : k s = some r) : starLazy p k s = some r := by
  cases s with
  | nil => exact h
  | cons c t => rw [starLazy_cons, h]; rfl

theorem scan_found (c : Char) (s r : List Char) (h : matchYtAt (c :: s) = some r) :
    scan (c :: s) = some r := by
  rw [scan_cons, h]; rfl

theorem noSlash_append {x q : List Char} (hid : ∀ c ∈ x, isIdChar c = true)
    (hq : NoSlash q) : NoSlash (x ++ q) := by
  intro c hc
  rcases List.mem_append.mp hc with h | h
  · exact isIdChar_ne_slash (hid c h)
  · exact hq c h

theorem captureId_append {x : List Char} (q : List Char) (hl : x.length = 11)
    (hid : ∀ c ∈ x, isIdChar c = true) : captureId (x ++ q) = some x := by
  show takeId 11 (x ++ q) = some x
  rw [← hl]
  exact takeId_append x q hid

theorem matchYtAt_watch (x q : List Char) (hl : x.length = 11)
    (hid : ∀ c ∈ x, isIdChar c = true) (hq : NoSlash q) :
    matchYtAt (("youtube.com/watch?v=").toList ++ (x ++ q)) = some x := by
  have hxq : NoSlash (x ++ q) := noSlash_append hid hq
  have hcap : captureId (x ++ q) = some x := captureId_append q hl hid
  have hA1 : altA1 (("watch?v=").toList ++ (x ++ q)) = none := by
    apply altA1_noslash
    intro c hc
    rcases List.mem_append.mp hc with h | h
    · exact (by decide : ∀ c ∈ ("watch?v=").toList, c ≠ '/') c h
    · exact hxq c h
  have hA2 : altA2 (("watch?v=").toList ++ (x ++ q)) = none := rfl
  have hA3 : altA3 (("watch?v=").toList ++ (x ++ q)) = some x := by
    have k1 : cls isQAmp (lit ['v', '='] captureId) ('?' :: 'v' :: '=' :: (x ++ q)) = some x := by
      rw [cls_cons, if_pos (by decide : isQAmp '?' = true), lit_cons, if_pos rfl,
        lit_cons, if_pos rfl]
      exact hcap
    show starLazy isNonSpace (cls isQAmp (lit ['v', '='] captureId))
      ('?' :: 'v' :: '=' :: (x ++ q)) = some x
    exact starLazy_hit _ _ _ _ k1
  have hin : innerYtc (("watch?v=").toList ++ (x ++ q)) = some x := by
    show orElseO (altA1 (("watch?v=").toList ++ (x ++ q)))
      (orElseO (altA2 (("watch?v=").toList ++ (x ++ q)))
        (altA3 (("watch?v=").toList ++ (x ++ q)))) = some x
    rw [hA1, orElseO_none, hA2, orElseO_none, hA3]
  have e : (("youtube.com/watch?v=").toList ++ (x ++ q)) =
      (("youtube.com/").toList ++ (("watch?v=").toList ++ (x ++ q))) := rfl
  show orElseO
    (lit (("youtube.com/").toList) innerYtc (("youtube.com/watch?v=").toList ++ (x ++ q)))
    (lit (("youtu.be/").toList) captureId (("youtube.com/watch?v=").toList ++ (x ++ q))) = some x
  rw [e, lit_append, hin]
  rfl

theorem matchYtAt_youtu (x q : List Char) (hl : x.length = 11)
    (hid : ∀ c ∈ x, isIdChar c = true) :
    matchYtAt (("youtu.be/").toList ++ (x ++ q)) = some x := by
  have hcap : captureId (x ++ q) = some x := captureId_append q hl hid
  show orElseO
    (lit (("youtube.com/").toList) innerYtc (("youtu.be/").toList ++ (x ++ q)))
    (lit (("youtu.be/").toList) captureId (("youtu.be/").toList ++ (x ++ q))) = some x
  rw [show lit (("youtube.com/").toList) innerYtc (("youtu.be/").toList ++ (x ++ q)) = none
      from rfl,
    orElseO_none, lit_append, hcap]

theorem matchYtAt_embed (x q : List Char) (hl : x.length = 11)
    (hid : ∀ c ∈ x, isIdChar c = true) (hq : NoSlash q) :
    matchYtAt (("youtube.com/embed/").toList ++ (x ++ q)) = some x := by
  have hxq : NoSlash (x ++ q) := noSlash_append hid hq
  have hcap : captureId (x ++ q) = some x := captureId_append q hl hid
  have hA1 : altA1 (("embed/").toList ++ (x ++ q)) = none :=
    altA1_oneSlash (("embed").toList) (x ++ q) (by decide) hxq
  have hA2 : altA2 (("embed/").toList ++ (x ++ q)) = some x := by
    show orElseO (captureId (x ++ q))
      (lit ['/'] captureId ('m' :: 'b' :: 'e' :: 'd' :: '/' :: (x ++ q))) = some x
    rw [hcap]
    rfl
  have hin : innerYtc (("embed/").toList ++ (x ++ q)) = some x := by
    show orElseO (altA1 (("embed/").toList ++ (x ++ q)))
      (orElseO (altA2 (("embed/").toList ++ (x ++ q)))
        (altA3 (("embed/").toList ++ (x ++ q)))) = some x
    rw [hA1, orElseO_none, hA2]
    rfl
  have e : (("youtube.com/embed/").toList ++ (x ++ q)) =
      (("youtube.com/").toList ++ (("embed/").toList ++ (x ++ q))) := rfl
  show orElseO
    (lit (("youtube.com/").toList) innerYtc (("youtube.com/embed/").toList ++ (x ++ q)))
    (lit (("youtu.be/").toList) captureId (("youtube.com/embed/").toList ++ (x ++ q))) = some x
  rw [e, lit_append, hin]
  rfl

theorem matchYtAt_v (x q : List Char) (hl : x.length = 11)
    (hid : ∀ c ∈ x, isIdChar c = true) (hq : NoSlash q) :
    matchYtAt (("youtube.com/v/").toList ++ (x ++ q)) = some x := by
  have hxq : NoSlash (x ++ q) := noSlash_append hid hq
  have hcap : captureId (x ++ q) = some x := captureId_append q hl hid
  have hA1 : altA1 (("v/").toList ++ (x ++ q)) = none :=
    altA1_oneSlash ['v'] (x ++ q) (by decide) hxq
  have hA2 : altA2 (("v/").toList ++ (x ++ q)) = some x := by
    show orElseO (captureId (x ++ q)) (lit ['e'] _ ('v' :: '/' :: (x ++ q))) = some x
    rw [hcap]
    rfl
  have hin : innerYtc (("v/").toList ++ (x ++ q)) = some x := by
    show orElseO (altA1 (("v/").toList ++ (x ++ q)))
      (orElseO (altA2 (("v/").toList ++ (x ++ q)))
        (altA3 (("v/").toList ++ (x ++ q)))) = some x
    rw [hA1, orElseO_none, hA2]
    rfl
  have e : (("youtube.com/v/").toList ++ (x ++ q)) =
      (("youtube.com/").toList ++ (("v/").toList ++ (x ++ q))) := rfl
  show orElseO
    (lit (("youtube.com/").toList) innerYtc (("youtube.com/v/").toList ++ (x ++ q)))
    (lit (("youtu.be/").toList) captureId (("youtube.com/v/").toList ++ (x ++ q))) = some x
  rw [e, lit_append, hin]
  rfl


theorem scan_watch (x q : List Char) (hl : x.length = 11)
    (hid : ∀ c ∈ x, isIdChar c = true) (hq : NoSlash q) :
    scan (("https://www.youtube.com/watch?v=").toList ++ (x ++ q)) = some x := by
  show scan (("youtube.com/watch?v=").toList ++ (x ++ q)) = some x
  exact scan_found _ _ _ (matchYtAt_watch x q hl hid hq)

theorem scan_youtu (x q : List Char) (hl : x.length = 11)
    (hid : ∀ c ∈ x, isIdChar c = true) :
    scan (("https://youtu.be/").toList ++ (x ++ q)) = some x := by
  show scan (("youtu.be/").toList ++ (x ++ q)) = some x
  exact scan_found _ _ _ (matchYtAt_youtu x q hl hid)

theorem scan_embed (x q : List Char) (hl : x.length = 11)
    (hid : ∀ c ∈ x, isIdChar c = true) (hq : NoSlash q) :
    scan (("https://www.youtube.com/embed/").toList ++ (x ++ q)) = some x := by
  show scan (("youtube.com/embed/").toList ++ (x ++ q)) = some x
  exact scan_found _ _ _ (matchYtAt_embed x q hl hid hq)

theorem scan_v (x q : List Char) (hl : x.length = 11)
    (hid : ∀ c ∈ x, isIdChar c = true) (hq : NoSlash q) :
    scan (("https://www.youtube.com/v/").toList ++ (x ++ q)) = some x := by
  show scan (("youtube.com/v/").toList ++ (x ++ q)) = some x
  exact scan_found _ _ _ (matchYtAt_v x q hl hid hq)

example (x q : List Char) (hl : x.length = 11)
    (hid : ∀ c ∈ x, isIdChar c = true) (hq : NoSlash q) :
    extractYouTubeId ("https://www.youtube.com/watch?v=" ++ String.mk x ++ String.mk q) =
      some (String.mk x) := by
  show Option.map (fun r => String.mk r)
    (scan (("https://www.youtube.com/watch?v=").toList ++ (x ++ q))) = some (String.mk x)
  rw [scan_watch x q hl hid hq]
  rfl


theorem lit_sound : ∀ (w : List Char) (k : List Char → Option (List Char))
    (s r : List Char), lit w k s = some r → ∃ t, k t = some r := by
  intro w
  induction w with
  | nil => intro k s r h; exact ⟨s, h⟩
  | cons c ws ih =>
    intro k s r h
    cases s with
    | nil => exact absurd h (by simp [lit])
    | cons d t =>
      rw [lit_cons] at h
      by_cases hc : c = d
      · rw [if_pos hc] at h
        exact ih k t r h
      · rw [if_neg hc] at h
        exact absurd h (by simp)

theorem cls_sound (p : Char → Bool) (k : List Char → Option (List Char))
    (s r : List Char) (h : cls p k s = some r) : ∃ t, k t = some r := by
  cases s with
  | nil => exact absurd h (by simp [cls])
  | cons c t =>
    rw [cls_cons] at h
    by_cases hp : p c = true
    · rw [if_pos hp] at h
      exact ⟨t, h⟩
    · rw [if_neg hp] at h
      exact absurd h (by simp)

theorem orElseO_sound (a b : Option (List Char)) (r : List Char)
    (h : orElseO a b = some r) : a = some r ∨ b = some r := by
  cases a with
  | none => exact Or.inr h
  | some v => exact Or.inl h

theorem plusGreedy_sound (p : Char → Bool) (k : List Char → Option (List Char)) :
    ∀ (s r : List Char), plusGreedy p k s = some r → ∃ t, k t = some r := by
  intro s
  induction s with
  | nil => intro r h; exact absurd h (by simp [plusGreedy])
  | cons c t ih =>
    intro r h
    rw [plusGreedy_cons] at h
    by_cases hp : p c = true
    · rw [if_pos hp] at h
      rcases orElseO_sound _ _ _ h with h1 | h2
      · exact ih r h1
      · exact ⟨t, h2⟩
    · rw [if_neg hp] at h
      exact absurd h (by simp)

theorem starLazy_sound (p : Char → Bool) (k : List Char → Option (List Char)) :
    ∀ (s r : List Char), starLazy p k s = some r → ∃ t, k t = some r := by
  intro s
  induction s with
  | nil => intro r h; exact ⟨[], h⟩
  | cons c t ih =>
    intro r h
    rw [starLazy_cons] at h
    rcases orElseO_sound _ _ _ h with h1 | h2
    · exact ⟨c :: t, h1⟩
    · by_cases hp : p c = true
      · rw [if_pos hp] at h2
        exact ih r h2
      · rw [if_neg hp] at h2
        exact absurd h2 (by simp)

theorem altA1_sound (s r : List Char) (h : altA1 s = some r) :
    ∃ t, captureId t = some r := by
  obtain ⟨t1, h1⟩ := plusGreedy_sound _ _ s r h
  obtain ⟨t2, h2⟩ := lit_sound _ _ t1 r h1
  obtain ⟨t3, h3⟩ := plusGreedy_sound _ _ t2 r h2
  exact lit_sound _ _ t3 r h3

theorem altA2_sound (s r : List Char) (h : altA2 s = some r) :
    ∃ t, captureId t = some r := by
  rcases orElseO_sound _ _ _ h with h1 | h2
  · obtain ⟨t1, h1a⟩ := lit_sound _ _ s r h1
    exact lit_sound _ _ t1 r h1a
  · obtain ⟨t1, h1⟩ := lit_sound _ _ s r h2
    rcases orElseO_sound _ _ _ h1 with h2a | h2b
    · obtain ⟨t2, h2c⟩ := lit_sound _ _ t1 r h2a
      exact lit_sound _ _ t2 r h2c
    · exact lit_sound _ _ t1 r h2b

theorem altA3_sound (s r : List Char) (h : altA3 s = some r) :
    ∃ t, captureId t = some r := by
  obtain ⟨t1, h1⟩ := starLazy_sound _ _ s r h
  obtain ⟨t2, h2⟩ := cls_sound _ _ t1 r h1
  exact lit_sound _ _ t2 r h2

theorem matchYtAt_sound (s r : List Char) (h : matchYtAt s = some r) :
    ∃ t, captureId t = some r := by
  rcases orElseO_sound _ _ _ h with h1 | h2
  · obtain ⟨t1, h1a⟩ := lit_sound _ _ s r h1
    rcases orElseO_sound _ _ _ h1a with h2a | h2b
    · exact altA1_sound _ _ h2a
    · rcases orElseO_sound _ _ _ h2b with h3a | h3b
      · exact altA2_sound _ _ h3a
      · exact altA3_sound _ _ h3b
  · exact lit_sound _ _ s r h2

theorem scan_sound : ∀ (s r : List Char), scan s = some r →
    ∃ t, captureId t = some r := by
  intro s
  induction s with
  | nil => intro r h; exact absurd h (by simp [scan])
  | cons c t ih =>
    intro r h
    rw [scan_cons] at h
    rcases orElseO_sound _ _ _ h with h1 | h2
    · exact matchYtAt_sound _ _ h1
    · exact ih r h2

/-- any id the extraction regex returns is exactly 11 characters drawn from
`[A-Za-z0-9_-]` -/
theorem extractYouTubeId_sound (s idStr : String)
    (h : extractYouTubeId s = some idStr) :
    idStr.length = 11 ∧ ∀ c ∈ idStr.toList, isIdChar c = true := by
  unfold extractYouTubeId at h
  cases hs : scan s.toList with
  | none => rw [hs] at h; exact absurd h (by simp)
  | some r =>
    rw [hs] at h
    simp at h
    obtain ⟨t, ht⟩ := scan_sound _ _ hs
    obtain ⟨hlen, hall⟩ := takeId_sound 11 t r ht
    subst h
    exact ⟨hlen, hall⟩


/-! ### Arithmetic facts about `jsMod` and `formatTime` -/

theorem jsTrunc_of_nonneg {t : ℚ} (h : 0 ≤ t) : jsTrunc t = ⌊t⌋ := by
  rw [jsTrunc, if_neg (not_lt.mpr h)]

theorem jsMod_eq_floor {t b : ℚ} (ht : 0 ≤ t) (hb : 0 < b) :
    jsMod t b = t - b * (⌊t / b⌋ : ℚ) := by
  rw [jsMod, jsTrunc_of_nonneg (div_nonneg ht hb.le)]

theorem jsMod_nonneg {t b : ℚ} (ht : 0 ≤ t) (hb : 0 < b) : 0 ≤ jsMod t b := by
  rw [jsMod_eq_floor ht hb, sub_nonneg]
  calc b * (⌊t / b⌋ : ℚ) ≤ b * (t / b) :=
        mul_le_mul_of_nonneg_left (Int.floor_le _) hb.le
    _ = t := by field_simp

theorem jsMod_lt {t b : ℚ} (ht : 0 ≤ t) (hb : 0 < b) : jsMod t b < b := by
  rw [jsMod_eq_floor ht hb, sub_lt_iff_lt_add]
  have h1 : t / b < (⌊t / b⌋ : ℚ) + 1 := Int.lt_floor_add_one _
  calc t = b * (t / b) := by field_simp
    _ < b * ((⌊t / b⌋ : ℚ) + 1) := by
        exact mul_lt_mul_of_pos_left h1 hb
    _ = b + b * (⌊t / b⌋ : ℚ) := by ring

theorem floor_div_bounds {v b : ℚ} (hv0 : 0 ≤ v) (hvb : v < 60 * b) (hb : 0 < b) :
    0 ≤ ⌊v / b⌋ ∧ ⌊v / b⌋ ≤ 59 := by
  constructor
  · exact Int.floor_nonneg.mpr (div_nonneg hv0 hb.le)
  · have : v / b < 60 := by
      rw [div_lt_iff₀ hb]
      linarith
    have h2 : ⌊v / b⌋ < 60 := Int.floor_lt.mpr (by exact_mod_cast this)
    omega

theorem padStart2_length (s : String) : 2 ≤ (padStart2 s).length := by
  rw [padStart2]
  by_cases h : s.length < 2
  · rw [if_pos h]
    have e1 : (String.mk (List.replicate (2 - s.length) '0')).length =
        2 - s.length := by
      show (List.replicate (2 - s.length) '0').length = 2 - s.length
      exact List.length_replicate _ _
    have : (String.mk (List.replicate (2 - s.length) '0') ++ s).length =
        (2 - s.length) + s.length := by
      rw [String.length_append, e1]
    omega
  · rw [if_neg h]
    omega

set_option maxRecDepth 8000 in
theorem twoDigit_eval : ∀ n : Nat, n < 60 →
    (padStart2 (toString n)).length = 2 ∧
      ∀ c ∈ (padStart2 (toString n)).toList, c.isDigit = true := by
  decide

theorem jsToString_of_le {m : ℤ} (h0 : 0 ≤ m) : jsToString m = toString m.natAbs := by
  rw [jsToString, if_neg (not_lt.mpr h0)]


/-! ### Structure of the joined rendering -/

theorem joinSep_foldl (sep : String) : ∀ (l : List String) (x y : String),
    l.foldl (fun acc b => acc ++ sep ++ b) (x ++ y) =
      x ++ l.foldl (fun acc b => acc ++ sep ++ b) y := by
  intro l
  induction l with
  | nil => intro x y; rfl
  | cons c t ih =>
    intro x y
    show t.foldl _ (x ++ y ++ sep ++ c) = x ++ t.foldl _ (y ++ sep ++ c)
    have e : x ++ y ++ sep ++ c = x ++ (y ++ sep ++ c) := by
      rw [String.append_assoc x y sep, String.append_assoc x (y ++ sep) c]
    rw [e]
    exact ih x (y ++ sep ++ c)

theorem joinSep_cons_cons (sep a b : String) (l : List String) :
    joinSep sep (a :: b :: l) = a ++ sep ++ joinSep sep (b :: l) := by
  show l.foldl (fun acc x => acc ++ sep ++ x) (a ++ sep ++ b) =
    a ++ sep ++ l.foldl (fun acc x => acc ++ sep ++ x) b
  exact joinSep_foldl sep l (a ++ sep) b

/-- helper to evaluate `formatTime` once its three integer components are known -/
theorem formatTime_eval (t : ℚ) (h m s : ℤ) (h1 : ⌊t / 3600⌋ = h)
    (h2 : ⌊jsMod t 3600 / 60⌋ = m) (h3 : ⌊jsMod t 60⌋ = s) :
    formatTime t = padStart2 (jsToString h) ++ ":" ++ padStart2 (jsToString m) ++ ":" ++
      padStart2 (jsToString s) := by
  simp only [formatTime, h1, h2, h3]

/-! ### Claim theorems -/

/-- C1: for every non-negative time `t` (JS numbers modelled as exact
rationals), `formatTime t` renders `hours:minutes:seconds` with
`hours = ⌊t / 3600⌋`, `minutes = ⌊(t mod 3600) / 60⌋`,
`seconds = ⌊t mod 60⌋`, each zero-padded to two digits and joined by `:`;
in particular `formatTime 0 = "00:00:00"`,
`formatTime 3661.7 = "01:01:01"` (floor, not round), and
`formatTime 59.999 = "00:00:59"`. -/
theorem claim_C1 :
    (∀ t : ℚ, 0 ≤ t →
      formatTime t =
        padStart2 (jsToString ⌊t / 3600⌋) ++ ":" ++
        padStart2 (jsToString ⌊(t - 3600 * (⌊t / 3600⌋ : ℚ)) / 60⌋) ++ ":" ++
        padStart2 (jsToString ⌊t - 60 * (⌊t / 60⌋ : ℚ)⌋)) ∧
    formatTime 0 = "00:00:00" ∧ formatTime (3661.7 : ℚ) = "01:01:01" ∧
    formatTime (59.999 : ℚ) = "00:00:59" := by
  refine ⟨?_, ?_, ?_, ?_⟩
  · intro t ht
    rw [show formatTime t = padStart2 (jsToString ⌊t / 3600⌋) ++ ":" ++
        padStart2 (jsToString ⌊jsMod t 3600 / 60⌋) ++ ":" ++
        padStart2 (jsToString ⌊jsMod t 60⌋) from rfl,
      jsMod_eq_floor ht (by norm_num : (0:ℚ) < 3600),
      jsMod_eq_floor ht (by norm_num : (0:ℚ) < 60)]
  · rw [formatTime_eval 0 0 0 0 (by norm_num) (by norm_num [jsMod, jsTrunc])
      (by norm_num [jsMod, jsTrunc])]
    decide
  · rw [formatTime_eval _ 1 1 1 (by norm_num) (by norm_num [jsMod, jsTrunc])
      (by norm_num [jsMod, jsTrunc])]
    decide
  · rw [formatTime_eval _ 0 0 59 (by norm_num) (by norm_num [jsMod, jsTrunc])
      (by norm_num [jsMod, jsTrunc])]
    decide

/-- witness for C1: the general clause applied at the concrete input `t = 0` -/
theorem claim_C1_witness :
    formatTime 0 =
      padStart2 (jsToString ⌊(0:ℚ) / 3600⌋) ++ ":" ++
      padStart2 (jsToString ⌊((0:ℚ) - 3600 * (⌊(0:ℚ) / 3600⌋ : ℚ)) / 60⌋) ++ ":" ++
      padStart2 (jsToString ⌊(0:ℚ) - 60 * (⌊(0:ℚ) / 60⌋ : ℚ)⌋) :=
  claim_C1.1 0 (le_refl 0)

/-- C10: `formatTime` is total on non-negative inputs and its minutes and
seconds components are two-digit strings denoting values in `00`–`59`, so
the output is `hours (≥ 2 digits) : 2-digit minutes : 2-digit seconds`. -/
theorem claim_C10 : ∀ t : ℚ, 0 ≤ t →
    ∃ hS mS sS : String,
      formatTime t = hS ++ ":" ++ mS ++ ":" ++ sS ∧
      2 ≤ hS.length ∧ mS.length = 2 ∧ sS.length = 2 ∧
      (∀ c ∈ mS.toList, c.isDigit = true) ∧ (∀ c ∈ sS.toList, c.isDigit = true) ∧
      mS = padStart2 (jsToString ⌊jsMod t 3600 / 60⌋) ∧
      0 ≤ ⌊jsMod t 3600 / 60⌋ ∧ ⌊jsMod t 3600 / 60⌋ ≤ 59 ∧
      sS = padStart2 (jsToString ⌊jsMod t 60⌋) ∧
      0 ≤ ⌊jsMod t 60⌋ ∧ ⌊jsMod t 60⌋ ≤ 59 := by
  intro t ht
  have hm : 0 ≤ ⌊jsMod t 3600 / 60⌋ ∧ ⌊jsMod t 3600 / 60⌋ ≤ 59 :=
    floor_div_bounds (jsMod_nonneg ht (by norm_num))
      (by
        have := jsMod_lt ht (by norm_num : (0:ℚ) < 3600)
        linarith) (by norm_num)
  have hs0 : 0 ≤ ⌊jsMod t 60⌋ := Int.floor_nonneg.mpr (jsMod_nonneg ht (by norm_num))
  have hs1 : ⌊jsMod t 60⌋ ≤ 59 := by
    have h2 : ⌊jsMod t 60⌋ < 60 :=
      Int.floor_lt.mpr (by exact_mod_cast jsMod_lt ht (by norm_num : (0:ℚ) < 60))
    omega
  have hmAbs : (⌊jsMod t 3600 / 60⌋).natAbs < 60 := by omega
  have hsAbs : (⌊jsMod t 60⌋).natAbs < 60 := by omega
  have hmEval := twoDigit_eval _ hmAbs
  have hsEval := twoDigit_eval _ hsAbs
  refine ⟨padStart2 (jsToString ⌊t / 3600⌋),
    padStart2 (jsToString ⌊jsMod t 3600 / 60⌋),
    padStart2 (jsToString ⌊jsMod t 60⌋), rfl, padStart2_length _, ?_, ?_, ?_, ?_,
    rfl, hm.1, hm.2, rfl, hs0, hs1⟩
  · rw [jsToString_of_le hm.1]
    exact hmEval.1
  · rw [jsToString_of_le hs0]
    exact hsEval.1
  · rw [jsToString_of_le hm.1]
    exact hmEval.2
  · rw [jsToString_of_le hs0]
    exact hsEval.2

/-- witness for C10: the theorem applied at the concrete input `t = 0` -/
theorem claim_C10_witness :
    ∃ hS mS sS : String,
      formatTime 0 = hS ++ ":" ++ mS ++ ":" ++ sS ∧
      2 ≤ hS.length ∧ mS.length = 2 ∧ sS.length = 2 ∧
      (∀ c ∈ mS.toList, c.isDigit = true) ∧ (∀ c ∈ sS.toList, c.isDigit = true) ∧
      mS = padStart2 (jsToString ⌊jsMod 0 3600 / 60⌋) ∧
      0 ≤ ⌊jsMod 0 3600 / 60⌋ ∧ ⌊jsMod 0 3600 / 60⌋ ≤ 59 ∧
      sS = padStart2 (jsToString ⌊jsMod 0 60⌋) ∧
      0 ≤ ⌊jsMod 0 60⌋ ∧ ⌊jsMod 0 60⌋ ≤ 59 :=
  claim_C10 0 (le_refl 0)

/-- C6: for every list of `N` segments, the formatted rendering consists of
exactly the `N` rendered blocks, in input order, consecutive blocks
separated by exactly one blank line, with no leading or trailing
separator. -/
theorem claim_C6 : ∀ segs : List Segment,
    JoinedBlocks (segs.map renderSegment) (formattedOf (some segs)) := by
  intro segs
  show JoinedBlocks (segs.map renderSegment) (formattedTranscript segs)
  induction segs with
  | nil => exact .nil
  | cons s rest ih =>
    cases rest with
    | nil => exact .single (renderSegment s)
    | cons s2 rest2 =>
      have hj : formattedTranscript (s :: s2 :: rest2) =
          renderSegment s ++ "\n\n" ++ formattedTranscript (s2 :: rest2) :=
        joinSep_cons_cons ("\n\n") (renderSegment s) (renderSegment s2)
          (rest2.map renderSegment)
      show JoinedBlocks (renderSegment s :: renderSegment s2 :: rest2.map renderSegment)
        (formattedTranscript (s :: s2 :: rest2))
      rw [hj]
      exact .cons _ _ _ _ ih


/-! ### Concrete environments used to instantiate the handler theorems -/

/-- an all-success Strategy-B environment -/
def envB0 : EnvB :=
  ⟨"k", "u", .ok ("Title", none), .ok (), true, 200, "", ⟨"hello", none⟩, true⟩

/-- a Strategy-A environment whose redirect-resolution service answers
`{success: false}` -/
def envA1 : EnvA :=
  ⟨"k", true, 200, some ("T"), true, 200, .ok ⟨false, none⟩, true, 200, true, 200, "",
   ⟨"hello", none⟩⟩

/-- an all-success Strategy-A environment whose transcription answer has
zero segments -/
def envA2 : EnvA :=
  ⟨"k", true, 200, some ("T"), true, 200, .ok ⟨true, some ("http://a")⟩, true, 200, true,
   200, "", ⟨"hello", some []⟩⟩

/-- an all-success Strategy-B environment whose transcription answer has
zero segments -/
def envB2 : EnvB :=
  ⟨"k", "u", .ok ("T", none), .ok (), true, 200, "", ⟨"hello", some []⟩, true⟩

/-- replace the `unlinkSync` outcome, keeping every other external result -/
def setUnlink (env : EnvB) (b : Bool) : EnvB :=
  ⟨env.cred, env.uuid, env.info, env.download, env.whisperOk, env.whisperStatus,
   env.whisperBody, env.whisperJson, b⟩

/-- C2 (amended): for URLs of the four known shapes whose 11-character
`[A-Za-z0-9_-]` token is followed by at most a slash-free query/fragment
suffix, `extractYouTubeId` returns exactly the token; the restriction to
slash-free suffixes, and the absence of a converse (null on non-shapes),
are forced by `claim_C2_counterexample`. -/
theorem claim_C2_amended : ∀ X Q : String, X.length = 11 →
    (∀ c ∈ X.toList, isIdChar c = true) → (∀ c ∈ Q.toList, c ≠ '/') →
    extractYouTubeId ("https://www.youtube.com/watch?v=" ++ X ++ Q) = some X ∧
    extractYouTubeId ("https://youtu.be/" ++ X ++ Q) = some X ∧
    extractYouTubeId ("https://www.youtube.com/embed/" ++ X ++ Q) = some X ∧
    extractYouTubeId ("https://www.youtube.com/v/" ++ X ++ Q) = some X := by
  intro X Q hl hid hq
  obtain ⟨x⟩ := X
  obtain ⟨q⟩ := Q
  refine ⟨?_, ?_, ?_, ?_⟩
  · show Option.map (fun r => String.mk r)
      (scan (("https://www.youtube.com/watch?v=").toList ++ (x ++ q))) = some (String.mk x)
    rw [scan_watch x q hl hid hq]
    rfl
  · show Option.map (fun r => String.mk r)
      (scan (("https://youtu.be/").toList ++ (x ++ q))) = some (String.mk x)
    rw [scan_youtu x q hl hid]
    rfl
  · show Option.map (fun r => String.mk r)
      (scan (("https://www.youtube.com/embed/").toList ++ (x ++ q))) = some (String.mk x)
    rw [scan_embed x q hl hid hq]
    rfl
  · show Option.map (fun r => String.mk r)
      (scan (("https://www.youtube.com/v/").toList ++ (x ++ q))) = some (String.mk x)
    rw [scan_v x q hl hid hq]
    rfl

/-- witness for C2: the amended theorem applied at token `dQw4w9WgXcQ` and
query suffix `&t=30s` -/
theorem claim_C2_witness :
    extractYouTubeId ("https://www.youtube.com/watch?v=" ++ "dQw4w9WgXcQ" ++ "&t=30s") =
      some ("dQw4w9WgXcQ") ∧
    extractYouTubeId ("https://youtu.be/" ++ "dQw4w9WgXcQ" ++ "&t=30s") =
      some ("dQw4w9WgXcQ") ∧
    extractYouTubeId ("https://www.youtube.com/embed/" ++ "dQw4w9WgXcQ" ++ "&t=30s") =
      some ("dQw4w9WgXcQ") ∧
    extractYouTubeId ("https://www.youtube.com/v/" ++ "dQw4w9WgXcQ" ++ "&t=30s") =
      some ("dQw4w9WgXcQ") :=
  claim_C2_amended ("dQw4w9WgXcQ") ("&t=30s") (by decide) (by decide) (by decide)

/-- C2 counterexample: `youtube.com/a/b/ccccccccccc` matches none of the four
spec shapes yet extraction succeeds (so "null on non-shapes" fails), and a
`/embed/` URL with trailing path segments extracts the last segment instead
of the token after `/embed/` (so "independent of trailing path segments"
fails). -/
theorem claim_C2_counterexample :
    specShape ("youtube.com/a/b/ccccccccccc") = false ∧
    extractYouTubeId ("youtube.com/a/b/ccccccccccc") = some ("ccccccccccc") ∧
    specShape ("https://www.youtube.com/embed/dQw4w9WgXcQ/a/ccccccccccc") = true ∧
    extractYouTubeId ("https://www.youtube.com/embed/dQw4w9WgXcQ/a/ccccccccccc") =
      some ("ccccccccccc") := by
  decide

/-- C8 counterexample: a directly supplied 3-character `id` is trusted
without validation — the request proceeds to the network and the canonical
id used downstream is `"abc"`, violating the 11-character invariant. -/
theorem claim_C8_counterexample :
    (handlerB envB0 ("GET") (some ("abc")) none).1 =
      ⟨200, .ok ⟨"abc", "Title", "https://www.youtube.com/watch?v=abc"⟩
        ⟨"hello", "", none, none⟩⟩ ∧
    Ev.getInfo ∈ (handlerB envB0 ("GET") (some ("abc")) none).2 ∧
    ("abc" : String).length ≠ 11 := by
  decide

/-- C8 (amended): every id the extraction regex yields is exactly 11
characters over `[A-Za-z0-9_-]`, and a url-only request whose extraction
fails is rejected with 400 before any effect is performed; a directly
supplied `id` however is trusted unvalidated (see the counterexample). -/
theorem claim_C8_amended :
    (∀ s idStr : String, extractYouTubeId s = some idStr →
      idStr.length = 11 ∧ ∀ c ∈ idStr.toList, isIdChar c = true) ∧
    (∀ (env : EnvB) (u : String), extractYouTubeId u = none →
      handlerB env ("GET") none (some u) =
        (⟨400, .err ("Missing or invalid YouTube video ID. Use ?id=VIDEO_ID or ?url=YOUTUBE_URL")⟩,
         [])) := by
  constructor
  · exact extractYouTubeId_sound
  · intro env u hu
    have he : effectiveIdB none (some u) = none := by
      unfold effectiveIdB
      rw [if_neg (by simp [jsTruthy])]
      by_cases hu0 : jsTruthy (some u) = true
      · rw [if_pos hu0]
        exact hu
      · rw [if_neg hu0]
    unfold handlerB
    rw [if_neg (by simp : ¬ ("GET" : String) ≠ "GET"), he]

/-- witness for C8: both clauses of the amended theorem at concrete inputs -/
theorem claim_C8_witness :
    (("dQw4w9WgXcQ" : String).length = 11 ∧
      ∀ c ∈ ("dQw4w9WgXcQ" : String).toList, isIdChar c = true) ∧
    handlerB envB0 ("GET") none (some ("not a url")) =
      (⟨400, .err ("Missing or invalid YouTube video ID. Use ?id=VIDEO_ID or ?url=YOUTUBE_URL")⟩,
       []) :=
  ⟨claim_C8_amended.1 ("https://youtu.be/dQw4w9WgXcQ") ("dQw4w9WgXcQ") (by decide),
   claim_C8_amended.2 envB0 ("not a url") (by decide)⟩


/-- C3: on every Strategy-B invocation that reaches creation of the
temporary audio file (validation passed and `ytdl.getInfo` succeeded),
deletion is attempted exactly once on every exit path — success,
transcription failure, or an exception in between — and the response is
entirely independent of whether deletion succeeds, so a deletion error is
never propagated and never replaces the primary error. -/
theorem claim_C3 : ∀ (env : EnvB) (qid qurl : Option String) (vid title : String)
    (au : Option String) (b : Bool),
    effectiveIdB qid qurl = some vid → env.info = .ok (title, au) →
    (handlerB env ("GET") qid qurl).2.count Ev.unlink = 1 ∧
    handlerB (setUnlink env b) ("GET") qid qurl = handlerB env ("GET") qid qurl := by
  intro env qid qurl vid title au b hid hinfo
  obtain ⟨cred, uuid, info, download, wOk, wSt, wB, wJ, uOk⟩ := env
  simp only at hinfo
  subst hinfo
  refine ⟨?_, rfl⟩
  unfold handlerB
  rw [if_neg (by simp : ¬ ("GET" : String) ≠ "GET"), hid]
  cases download with
  | error e => rfl
  | ok u =>
    cases wOk
    · rfl
    · rfl

/-- witness for C3: the theorem at a concrete request and environment -/
theorem claim_C3_witness :
    (handlerB envB0 ("GET") (some ("dQw4w9WgXcQ")) none).2.count Ev.unlink = 1 ∧
    handlerB (setUnlink envB0 false) ("GET") (some ("dQw4w9WgXcQ")) none =
      handlerB envB0 ("GET") (some ("dQw4w9WgXcQ")) none :=
  claim_C3 envB0 (some ("dQw4w9WgXcQ")) none ("dQw4w9WgXcQ") ("Title") none false
    (by decide) (by decide)


/-- C4 (amended): for the `hello.ts` handler the claimed equivalence holds —
a GET request is answered 400 with no effect performed if and only if
neither a truthy `id` nor an id extractable from `url` is available; the
`part_000` variant however reads only `id`, so there the 400-with-no-effect
outcome is equivalent to `id` being absent or empty, regardless of any
`url` parameter (see the counterexample). -/
theorem claim_C4_amended :
    (∀ (env : EnvB) (qid qurl : Option String),
      ((handlerB env ("GET") qid qurl).1.status = 400 ∧ (handlerB env ("GET") qid qurl).2 = []) ↔
        effectiveIdB qid qurl = none) ∧
    (∀ (env : EnvA) (qid qurl : Option String),
      ((handlerA env qid qurl).1.status = 400 ∧ (handlerA env qid qurl).2 = []) ↔
        jsTruthy qid = false) := by
  constructor
  · intro env qid qurl
    obtain ⟨cred, uuid, info, download, wOk, wSt, wB, wJ, uOk⟩ := env
    unfold handlerB
    rw [if_neg (by simp : ¬ ("GET" : String) ≠ "GET")]
    cases he : effectiveIdB qid qurl with
    | none => simp
    | some v =>
      simp only []
      constructor
      · intro h
        exfalso
        cases info with
        | error e => simp at h
        | ok p =>
          obtain ⟨title, au⟩ := p
          cases download with
          | error e => simp at h
          | ok u =>
            cases wOk
            · simp at h
            · simp at h
      · intro h
        exact absurd h (by simp)
  · intro env qid qurl
    obtain ⟨cred, oOk, oSt, oT, aOk, aSt, aB, fOk, fSt, wOk, wSt, wB, wJ⟩ := env
    unfold handlerA
    by_cases hq : jsTruthy qid = true
    · rw [if_neg (by simp [hq])]
      simp only [hq]
      constructor
      · intro h
        exfalso
        cases oOk
        · simp at h
        · cases aOk
          · simp at h
          · cases aB with
            | error e => simp at h
            | ok body =>
              obtain ⟨bs, bu⟩ := body
              cases bs
              · simp [jsTruthy] at h
              · cases bu with
                | none => simp [jsTruthy] at h
                | some u =>
                  by_cases hu : u = ""
                  · subst hu
                    simp [jsTruthy] at h
                  · have hut : jsTruthy (some u) = true := by simp [jsTruthy, hu]
                    cases fOk
                    · simp [hut] at h
                    · cases wOk
                      · simp [hut] at h
                      · simp [hut] at h
      · intro h
        simp at h
    · rw [if_pos (by simpa using hq)]
      simp only [eq_false_of_ne_true hq]
      simp

/-- C4 counterexample: a request carrying only a `url` that resolves to a
valid id is nevertheless rejected 400 by the `part_000` handler, which
never reads `url` — refuting "whenever at least one of `id` or `url`
resolves to a valid ID, the pipeline proceeds past input validation". -/
theorem claim_C4_counterexample :
    extractYouTubeId ("https://youtu.be/dQw4w9WgXcQ") = some ("dQw4w9WgXcQ") ∧
    handlerA envA2 none (some ("https://youtu.be/dQw4w9WgXcQ")) =
      (⟨400, .err ("Missing video ID. Use ?id=VIDEO_ID")⟩, []) := by
  decide


/-- C5: whenever Strategy A reaches the redirect-resolution step and that
service answers with a non-success status, a malformed body, a false/absent
success flag or a missing direct URL, the pipeline answers a single
`{error}` result with status 500 and never calls the transcription
service. -/
theorem claim_C5 : ∀ (env : EnvA) (qid qurl : Option String),
    jsTruthy qid = true → env.oembedOk = true →
    (env.audioApiOk = false ∨ (∃ e, env.audioApiBody = .error e) ∨
      (∃ b, env.audioApiBody = .ok b ∧ (b.success = false ∨ jsTruthy b.url = false))) →
    (∃ m, handlerA env qid qurl = (⟨500, Body.err m⟩, [Ev.oembed, Ev.audioApi])) ∧
    ∀ r, Ev.whisper r ∉ (handlerA env qid qurl).2 := by
  intro env qid qurl hq hoe hdis
  obtain ⟨cred, oOk, oSt, oT, aOk, aSt, aB, fOk, fSt, wOk, wSt, wB, wJ⟩ := env
  simp only at hoe hdis
  subst hoe
  have heq : ∃ m, handlerA ⟨cred, true, oSt, oT, aOk, aSt, aB, fOk, fSt, wOk, wSt, wB, wJ⟩
      qid qurl = (⟨500, Body.err m⟩, [Ev.oembed, Ev.audioApi]) := by
    unfold handlerA
    rw [if_neg (by simp [hq]), if_neg (by simp)]
    rcases hdis with h1 | ⟨e, h2⟩ | ⟨b, h3, h4⟩
    · subst h1
      refine ⟨jsMsg ("Failed to get audio URL: " ++ toString aSt), ?_⟩
      simp
    · subst h2
      cases aOk
      · refine ⟨jsMsg ("Failed to get audio URL: " ++ toString aSt), ?_⟩
        simp
      · refine ⟨jsMsg e, ?_⟩
        simp
    · subst h3
      cases aOk
      · refine ⟨jsMsg ("Failed to get audio URL: " ++ toString aSt), ?_⟩
        simp
      · obtain ⟨bs, bu⟩ := b
        simp only at h4
        have hcond : (!bs || !jsTruthy bu) = true := by
          rcases h4 with h | h
          · subst h
            simp
          · simp [h]
        refine ⟨jsMsg ("Audio API did not return a valid URL: " ++
          stringifyAudioBody ⟨bs, bu⟩), ?_⟩
        simp [hcond]
  obtain ⟨m, hm⟩ := heq
  refine ⟨⟨m, hm⟩, ?_⟩
  intro r
  rw [hm]
  simp

/-- witness for C5: the theorem at a concrete environment whose resolution
service answers `{success: false}` -/
theorem claim_C5_witness :
    (∃ m, handlerA envA1 (some ("v123")) none = (⟨500, Body.err m⟩, [Ev.oembed, Ev.audioApi])) ∧
    ∀ r, Ev.whisper r ∉ (handlerA envA1 (some ("v123")) none).2 :=
  claim_C5 envA1 (some ("v123")) none (by decide) (by decide)
    (Or.inr (Or.inr ⟨⟨false, none⟩, by decide, Or.inl rfl⟩))


/-- every success body of Strategy A carries the transcription service's
text verbatim and the rendering derived from its segments -/
theorem handlerA_ok_body (env : EnvA) (qid qurl : Option String) (v : VideoOut)
    (t : TranscriptOut) (h : (handlerA env qid qurl).1.body = Body.ok v t) :
    t = ⟨env.whisperJson.text, formattedOf env.whisperJson.segments,
         env.whisperJson.segments, some ("whisper")⟩ := by
  obtain ⟨cred, oOk, oSt, oT, aOk, aSt, aB, fOk, fSt, wOk, wSt, wB, wJ⟩ := env
  simp only
  unfold handlerA at h
  by_cases hq : jsTruthy qid = true
  · rw [if_neg (by simp [hq])] at h
    cases oOk
    · simp at h
    · cases aOk
      · simp at h
      · cases aB with
        | error e => simp at h
        | ok b =>
          obtain ⟨bs, bu⟩ := b
          cases bs
          · simp at h
          · cases bu with
            | none => simp [jsTruthy] at h
            | some u =>
              by_cases hu : u = ""
              · subst hu
                simp [jsTruthy] at h
              · have hut : jsTruthy (some u) = true := by simp [jsTruthy, hu]
                cases fOk
                · simp [hut] at h
                · cases wOk
                  · simp [hut] at h
                  · simp [hut] at h
                    exact h.2.symm
  · rw [if_pos (by simpa using hq)] at h
    simp at h

/-- every success body of Strategy B carries the transcription service's
text verbatim and the rendering derived from its segments -/
theorem handlerB_ok_body (env : EnvB) (method : String) (qid qurl : Option String)
    (v : VideoOut) (t : TranscriptOut)
    (h : (handlerB env method qid qurl).1.body = Body.ok v t) :
    t = ⟨env.whisperJson.text, formattedOf env.whisperJson.segments,
         env.whisperJson.segments, none⟩ := by
  obtain ⟨cred, uuid, info, download, wOk, wSt, wB, wJ, uOk⟩ := env
  simp only
  unfold handlerB at h
  by_cases hm : method ≠ "GET"
  · rw [if_pos hm] at h
    simp at h
  · rw [if_neg hm] at h
    cases he : effectiveIdB qid qurl with
    | none =>
      rw [he] at h
      simp at h
    | some vid =>
      rw [he] at h
      cases info with
      | error e => simp at h
      | ok p =>
        obtain ⟨title, au⟩ := p
        cases download with
        | error e => simp at h
        | ok u =>
          cases wOk
          · simp at h
          · simp at h
            exact h.2.symm


/-- C7: if the transcription service returns zero segments, every success
response of either handler has an empty `transcript.formatted` while
`transcript.full` equals the service's `text` field verbatim. -/
theorem claim_C7 : ∀ (envA : EnvA) (envB : EnvB) (qidA qurlA : Option String)
    (method : String) (qidB qurlB : Option String) (v : VideoOut) (t : TranscriptOut),
    ((handlerA envA qidA qurlA).1.body = Body.ok v t →
      t.full = envA.whisperJson.text ∧
      (envA.whisperJson.segments = some [] → t.formatted = "")) ∧
    ((handlerB envB method qidB qurlB).1.body = Body.ok v t →
      t.full = envB.whisperJson.text ∧
      (envB.whisperJson.segments = some [] → t.formatted = "")) := by
  intro envA envB qidA qurlA method qidB qurlB v t
  constructor
  · intro h
    have ht := handlerA_ok_body envA qidA qurlA v t h
    subst ht
    refine ⟨rfl, ?_⟩
    intro hseg
    show formattedOf envA.whisperJson.segments = ""
    rw [hseg]
    rfl
  · intro h
    have ht := handlerB_ok_body envB method qidB qurlB v t h
    subst ht
    refine ⟨rfl, ?_⟩
    intro hseg
    show formattedOf envB.whisperJson.segments = ""
    rw [hseg]
    rfl

/-- witness for C7: the Strategy-A clause applied at a concrete
zero-segment environment, with both hypotheses discharged -/
theorem claim_C7_witness :
    (⟨"hello", "", some [], some ("whisper")⟩ : TranscriptOut).full =
        envA2.whisperJson.text ∧
    (⟨"hello", "", some [], some ("whisper")⟩ : TranscriptOut).formatted = "" :=
  ⟨((claim_C7 envA2 envB2 (some ("v123")) none ("GET") (some ("v123")) none
      ⟨"v123", "T", "https://www.youtube.com/watch?v=v123"⟩
      ⟨"hello", "", some [], some ("whisper")⟩).1 (by decide)).1,
   ((claim_C7 envA2 envB2 (some ("v123")) none ("GET") (some ("v123")) none
      ⟨"v123", "T", "https://www.youtube.com/watch?v=v123"⟩
      ⟨"hello", "", some [], some ("whisper")⟩).1 (by decide)).2 (by decide)⟩

/-- every transcription request Strategy A issues names the file part after
the video id with an `.mp3` extension and carries the fixed model, response
format, bearer credential and POST method -/
theorem handlerA_whisper_req (env : EnvA) (qid qurl : Option String) (r : WhisperReq)
    (h : Ev.whisper r ∈ (handlerA env qid qurl).2) :
    r = ⟨(qid.getD ("")) ++ ".mp3", "whisper-1", "verbose_json",
         "Bearer " ++ env.cred, "POST"⟩ := by
  obtain ⟨cred, oOk, oSt, oT, aOk, aSt, aB, fOk, fSt, wOk, wSt, wB, wJ⟩ := env
  simp only
  unfold handlerA at h
  by_cases hq : jsTruthy qid = true
  · rw [if_neg (by simp [hq])] at h
    cases oOk
    · simp at h
    · cases aOk
      · simp at h
      · cases aB with
        | error e => simp at h
        | ok b =>
          obtain ⟨bs, bu⟩ := b
          cases bs
          · simp at h
          · cases bu with
            | none => simp [jsTruthy] at h
            | some u =>
              by_cases hu : u = ""
              · subst hu
                simp [jsTruthy] at h
              · have hut : jsTruthy (some u) = true := by simp [jsTruthy, hu]
                cases fOk
                · simp [hut] at h
                · cases wOk
                  · simp [hut] at h
                    exact h
                  · simp [hut] at h
                    exact h
  · rw [if_pos (by simpa using hq)] at h
    simp at h

/-- every transcription request Strategy B issues names the file part after
the temporary audio file and carries the fixed model, response format,
bearer credential and POST method -/
theorem handlerB_whisper_req (env : EnvB) (method : String) (qid qurl : Option String)
    (r : WhisperReq) (h : Ev.whisper r ∈ (handlerB env method qid qurl).2) :
    r = ⟨tmpBaseName env.uuid, "whisper-1", "verbose_json",
         "Bearer " ++ env.cred, "POST"⟩ := by
  obtain ⟨cred, uuid, info, download, wOk, wSt, wB, wJ, uOk⟩ := env
  simp only
  unfold handlerB at h
  by_cases hm : method ≠ "GET"
  · rw [if_pos hm] at h
    simp at h
  · rw [if_neg hm] at h
    cases he : effectiveIdB qid qurl with
    | none =>
      rw [he] at h
      simp at h
    | some vid =>
      rw [he] at h
      cases info with
      | error e => simp at h
      | ok p =>
        obtain ⟨title, au⟩ := p
        cases download with
        | error e => simp at h
        | ok u =>
          cases wOk
          · simp at h
            exact h
          · simp at h
            exact h

/-- C9 (amended): on every submission to the transcription service the
multipart body carries `model = "whisper-1"`, `response_format =
"verbose_json"` and a bearer-authenticated POST; Strategy A names the file
part `{videoId}.mp3`, while Strategy B names it after the temporary file
`youtube-audio-{uuid}.mp3` (the deviation shown by the counterexample). -/
theorem claim_C9_amended :
    (∀ (env : EnvA) (qid qurl : Option String) (r : WhisperReq),
      Ev.whisper r ∈ (handlerA env qid qurl).2 →
      r = ⟨(qid.getD ("")) ++ ".mp3", "whisper-1", "verbose_json",
           "Bearer " ++ env.cred, "POST"⟩) ∧
    (∀ (env : EnvB) (method : String) (qid qurl : Option String) (r : WhisperReq),
      Ev.whisper r ∈ (handlerB env method qid qurl).2 →
      r = ⟨tmpBaseName env.uuid, "whisper-1", "verbose_json",
           "Bearer " ++ env.cred, "POST"⟩) :=
  ⟨fun env qid qurl r h => handlerA_whisper_req env qid qurl r h,
   fun env method qid qurl r h => handlerB_whisper_req env method qid qurl r h⟩

/-- witness for C9: the Strategy-A clause at a concrete request -/
theorem claim_C9_witness :
    (⟨"v123" ++ ".mp3", "whisper-1", "verbose_json", "Bearer " ++ "k", "POST"⟩ : WhisperReq) =
      ⟨((some ("v123")).getD ("")) ++ ".mp3", "whisper-1", "verbose_json",
       "Bearer " ++ envA2.cred, "POST"⟩ :=
  claim_C9_amended.1 envA2 (some ("v123")) none
    ⟨"v123" ++ ".mp3", "whisper-1", "verbose_json", "Bearer " ++ "k", "POST"⟩ (by decide)

/-- C9 counterexample: a Strategy-B submission names the file part after the
temporary file, not after the video id — for uuid `u` and video id
`dQw4w9WgXcQ` the part is `youtube-audio-u.mp3`, not `dQw4w9WgXcQ.mp3`. -/
theorem claim_C9_counterexample :
    (handlerB envB0 ("GET") (some ("dQw4w9WgXcQ")) none).2 =
      [Ev.getInfo, Ev.download,
       Ev.whisper ⟨"youtube-audio-u.mp3", "whisper-1", "verbose_json", "Bearer k", "POST"⟩,
       Ev.unlink] ∧
    ("youtube-audio-u.mp3" : String) ≠ "dQw4w9WgXcQ" ++ ".mp3" := by
  decide

end NHW
